import Mathlib

/-!
Shallow embedding of `dispatcher/service/pool.py` (worker pool of the
dispatcher service): the `PoolWorker` status machine, duplicate-suppression
blocking decisions, task dispatch, queue draining, worker management and
shutdown, together with theorems settling the specification claims.

Modelling conventions:
* Monotonic time (`time.monotonic()`) is an `Int` passed explicitly as `now`.
* Python float truthiness is modelled: a timestamp or timeout is "truthy"
  when it is present and nonzero.
* A task message is a record of the keys the pool inspects; `oid` models
  Python object identity (the `is` comparison in `_duplicate_in_list`),
  it is not part of dict equality (`pyEq`).
* The subprocess (`ProcessProxy`, not part of the sources) is abstracted to
  two booleans on the worker: `alive` (`is_alive()`) and `killable`
  (whether a SIGKILL would bring it down); `spawn_ok` abstracts whether
  `process.start()` raises.  OS-level signalling in `cancel` has no
  pool-state effect beyond the `is_active_cancel` flag.
* `asyncio.Event` objects are booleans; waiting on one succeeds exactly
  when it is already set (no other task can set it within one modelled
  call, matching the single-scheduler semantics for the states studied).
-/

inductive Status where
  | initialized
  | spawned
  | starting
  | ready
  | stopping
  | exited
  | error
  | retired
deriving DecidableEq

/-- A task message: the keys of the Python dict that the pool inspects.
`oid` models object identity and is excluded from structural equality. -/
structure Msg where
  oid : Nat
  uuid : Option String
  task : Option Nat
  args : Option Nat
  kwargs : Option Nat
  timeout : Option Int
  on_duplicate : Option String
deriving DecidableEq

/-- Python `==` on the message dicts: structural equality of contents,
ignoring object identity. -/
def Msg.pyEq (a b : Msg) : Bool :=
  a.uuid == b.uuid && a.task == b.task && a.args == b.args &&
  a.kwargs == b.kwargs && a.timeout == b.timeout && a.on_duplicate == b.on_duplicate

/-- The duplicate-identity comparison of `_duplicate_in_list`:
`all(other.get(key) == message.get(key) for key in ('task', 'args', 'kwargs'))`. -/
def Msg.dupKeyEq (other m : Msg) : Bool :=
  other.task == m.task && other.args == m.args && other.kwargs == m.kwargs

/-- Per-worker state record of `PoolWorker` in `pool.py`. -/
structure PoolWorker where
  worker_id : Nat
  alive : Bool
  killable : Bool
  spawn_ok : Bool
  current_task : Option Msg
  created_at : Int
  started_at : Option Int
  stopping_at : Option Int
  retired_at : Option Int
  is_active_cancel : Bool
  finished_count : Nat
  status : Status
  exit_msg_event : Bool
deriving DecidableEq

/-- Embeds `PoolWorker.__init__`: fresh worker, status `initialized`, process not
yet started. -/
def mkWorker (wid : Nat) (now : Int) : PoolWorker :=
  { worker_id := wid
    alive := false
    killable := true
    spawn_ok := true
    current_task := none
    created_at := now
    started_at := none
    stopping_at := none
    retired_at := none
    is_active_cancel := false
    finished_count := 0
    status := Status.initialized
    exit_msg_event := false }

def PoolWorker.counts_for_capacity (w : PoolWorker) : Bool :=
  match w.status with
  | Status.initialized | Status.spawned | Status.starting | Status.ready => true
  | _ => false

def PoolWorker.inactive (w : PoolWorker) : Bool :=
  match w.status with
  | Status.exited | Status.error | Status.initialized => true
  | _ => false

/-- Embeds `PoolWorker.next_wakeup`: `started_at + timeout` when a truthy timeout
is set on the current task and no cancel is in flight (Python truthiness:
present and nonzero). -/
def PoolWorker.next_wakeup (w : PoolWorker) : Option Int :=
  if w.is_active_cancel then none
  else
    match w.current_task, w.started_at with
    | some m, some s =>
      match m.timeout with
      | some t => if t != 0 && s != 0 then some (s + t) else none
      | none => none
    | _, _ => none

/-- Embeds `PoolWorker.start_task`: mark busy and record `started_at`
(the write to the inbound message queue has no pool-state effect). -/
def PoolWorker.start_task (w : PoolWorker) (m : Msg) (now : Int) : PoolWorker :=
  { w with current_task := some m, started_at := some now }

/-- Embeds `PoolWorker.cancel`: sets the active-cancel flag; the SIGUSR1 delivery
to the subprocess is abstracted away. -/
def PoolWorker.cancel (w : PoolWorker) : PoolWorker :=
  { w with is_active_cancel := true }

/-- Embeds `PoolWorker.signal_stop`: put the stop sentinel (no state effect),
cancel a running task, move to `stopping` unconditionally. -/
def PoolWorker.signal_stop (w : PoolWorker) (now : Int) : PoolWorker :=
  let w1 := if w.current_task.isSome then w.cancel else w
  { w1 with status := Status.stopping, stopping_at := some now }

/-- Embeds `PoolWorker.start`: fork the subprocess for an `initialized` worker;
on spawn failure become `error`, otherwise `spawned` then `starting`. -/
def PoolWorker.start (w : PoolWorker) : PoolWorker :=
  if w.status != Status.initialized then w
  else if w.spawn_ok then { w with status := Status.starting, alive := true }
  else { w with status := Status.error }

/-- Embeds `PoolWorker.stop`: terminal shutdown.  Early return for
`retired`/`error`; otherwise signal stop if needed, wait for the exit
message (success iff the latch is already set, else timeout to `error`),
join, then the kill loop: a dead process means `retired`, a killable one is
killed and `retired`, an unkillable one ends `error`. -/
def PoolWorker.stop (w : PoolWorker) (now : Int) : PoolWorker :=
  if w.status = Status.retired ∨ w.status = Status.error then w
  else
    let w1 := if w.status ≠ Status.stopping ∧ w.status ≠ Status.exited
              then w.signal_stop now else w
    let w2 := if w1.status = Status.exited then { w1 with exit_msg_event := false }
              else if w1.exit_msg_event then { w1 with exit_msg_event := false }
              else { w1 with status := Status.error }
    if !w2.alive then { w2 with status := Status.retired, retired_at := some now }
    else if w2.killable then
      { w2 with status := Status.retired, retired_at := some now, alive := false }
    else { w2 with status := Status.error, retired_at := some now }

/-- Embeds `PoolWorker.mark_finished_task`. -/
def PoolWorker.mark_finished_task (w : PoolWorker) : PoolWorker :=
  { w with is_active_cancel := false, current_task := none, started_at := none,
           finished_count := w.finished_count + 1 }

/-- The awaitable latches of `PoolEvents`, as booleans. -/
structure PoolEvents where
  queue_cleared : Bool
  work_cleared : Bool
  management_event : Bool
  workers_ready : Bool
deriving DecidableEq

/-- Pool state of `WorkerPool` in `pool.py`.  Workers are kept as a list in
insertion order (Python dict iteration order); asyncio tasks, locks and the
process manager carry no modelled state. -/
structure WorkerPool where
  min_workers : Nat
  max_workers : Nat
  scaledown_wait : Int
  scaledown_interval : Int
  worker_stop_wait : Int
  worker_removal_wait : Int
  workers : List PoolWorker
  queued_messages : List Msg
  next_worker_id : Nat
  shutting_down : Bool
  finished_count : Nat
  canceled_count : Nat
  discard_count : Nat
  last_used_by_ct : List (Nat × Option Int)
  events : PoolEvents
deriving DecidableEq

/-- Embeds `WorkerPool.__init__` with the given worker bounds and the default
timing parameters. -/
def WorkerPool.init (minW maxW : Nat) : WorkerPool :=
  { min_workers := minW
    max_workers := maxW
    scaledown_wait := 15
    scaledown_interval := 15
    worker_stop_wait := 30
    worker_removal_wait := 30
    workers := []
    queued_messages := []
    next_worker_id := 0
    shutting_down := false
    finished_count := 0
    canceled_count := 0
    discard_count := 0
    last_used_by_ct := []
    events := { queue_cleared := false, work_cleared := false,
                management_event := false, workers_ready := false } }

def WorkerPool.get_running_count (p : WorkerPool) : Nat :=
  (p.workers.filter (fun w => w.current_task.isSome)).length

def WorkerPool.running_tasks (p : WorkerPool) : List Msg :=
  p.workers.filterMap (fun w => w.current_task)

/-- Embeds `WorkerPool._duplicate_in_list`: a structural duplicate exists in the
list, skipping the entry that is the probed message itself (`is`,
modelled by `oid`). -/
def duplicate_in_list (m : Msg) (l : List Msg) : Bool :=
  l.any (fun o => o.oid != m.oid && Msg.dupKeyEq o m)

def WorkerPool.already_running (p : WorkerPool) (m : Msg) : Bool :=
  duplicate_in_list m p.running_tasks

def WorkerPool.already_queued (p : WorkerPool) (m : Msg) : Bool :=
  duplicate_in_list m p.queued_messages

/-- Modelled from the spec: the `DuplicateBehavior` enum lives in
`dispatcher/utils`, which is not among the sources; spec sections 4.4 and 6
list its values `parallel`, `serial`, `queue_one`, `discard`. -/
def DuplicateBehavior.parallel : String := "parallel"

/-- Modelled from the spec: see `DuplicateBehavior.parallel`. -/
def DuplicateBehavior.serial : String := "serial"

/-- Modelled from the spec: see `DuplicateBehavior.parallel`. -/
def DuplicateBehavior.queue_one : String := "queue_one"

/-- Modelled from the spec: see `DuplicateBehavior.parallel`. -/
def DuplicateBehavior.discard : String := "discard"

/-- Modelled from the spec: the `MessageAction` enum lives in
`dispatcher/utils`, which is not among the sources; the spec's dispatch
path distinguishes the actions run, queue and discard. -/
def MessageAction.run : String := "run"

/-- Modelled from the spec: see `MessageAction.run`. -/
def MessageAction.queue : String := "queue"

/-- Modelled from the spec: see `MessageAction.run`. -/
def MessageAction.discard : String := "discard"

/-- Embeds `WorkerPool.get_blocking_action`: the duplicate-suppression decision.
An unrecognized `on_duplicate` value only logs and falls through to run. -/
def WorkerPool.get_blocking_action (p : WorkerPool) (m : Msg) : String :=
  let on_duplicate := m.on_duplicate.getD DuplicateBehavior.parallel
  if on_duplicate = DuplicateBehavior.serial then
    if p.already_running m then MessageAction.queue else MessageAction.run
  else if on_duplicate = DuplicateBehavior.discard then
    if p.already_running m || p.already_queued m then MessageAction.discard
    else MessageAction.run
  else if on_duplicate = DuplicateBehavior.queue_one then
    if p.already_queued m then MessageAction.discard
    else if p.already_running m then MessageAction.queue
    else MessageAction.run
  else MessageAction.run

def WorkerPool.message_is_blocked (p : WorkerPool) (m : Msg) : Bool :=
  p.get_blocking_action m == MessageAction.queue

/-- Embeds `WorkerPool.get_unblocked_message`: first queued message not blocked. -/
def WorkerPool.get_unblocked_message (p : WorkerPool) : Option Msg :=
  p.queued_messages.find? (fun m => !p.message_is_blocked m)

def WorkerPool.unblocked_message_ct (p : WorkerPool) : Nat :=
  (p.queued_messages.filter (fun m => !p.message_is_blocked m)).length

def WorkerPool.active_task_ct (p : WorkerPool) : Nat :=
  p.get_running_count + p.unblocked_message_ct

/-- Embeds `WorkerPool.get_free_worker`: first worker that is `ready` and has no
current task. -/
def WorkerPool.get_free_worker (p : WorkerPool) : Option PoolWorker :=
  p.workers.find? (fun w => w.current_task.isNone && w.status == Status.ready)

/-- Dispatching to the worker returned by `get_free_worker`: `start_task`
on the first free ready worker of the fleet. -/
def assignFree (ws : List PoolWorker) (m : Msg) (now : Int) : List PoolWorker :=
  match ws with
  | [] => []
  | w :: rest =>
    if w.current_task.isNone && w.status == Status.ready then w.start_task m now :: rest
    else w :: assignFree rest m now

/-- Assignment `d[k] = v` on the `last_used_by_ct` mapping. -/
def setLast (l : List (Nat × Option Int)) (k : Nat) (v : Option Int) :
    List (Nat × Option Int) :=
  match l with
  | [] => [(k, v)]
  | kv :: rest => if kv.1 = k then (k, v) :: rest else kv :: setLast rest k v

/-- Lookup `d.get(k)` on the `last_used_by_ct` mapping. -/
def getLast (l : List (Nat × Option Int)) (k : Nat) : Option (Option Int) :=
  (l.find? (fun kv => kv.1 == k)).map (fun kv => kv.2)

/-- Embeds `WorkerPool.post_task_start`: kicks the timeout runner iff the message
has a `timeout` key (the boolean result records the kick), and blocks
scale-down of the current busy count. -/
def WorkerPool.post_task_start (p : WorkerPool) (m : Msg) : WorkerPool × Bool :=
  let kicked := m.timeout.isSome
  ({ p with last_used_by_ct := setLast p.last_used_by_ct p.get_running_count none }, kicked)

/-- Embeds `WorkerPool.dispatch_task`: under the management lock, discard on the
duplicate policy, queue when shutting down, queue on the policy, then hand
to a free worker or queue-and-kick-management. -/
def WorkerPool.dispatch_task (p : WorkerPool) (m : Msg) (now : Int) : WorkerPool :=
  let blocking_action := p.get_blocking_action m
  if blocking_action = MessageAction.discard then
    { p with discard_count := p.discard_count + 1 }
  else if p.shutting_down then
    { p with queued_messages := p.queued_messages ++ [m] }
  else if blocking_action = MessageAction.queue then
    { p with queued_messages := p.queued_messages ++ [m] }
  else if p.get_free_worker.isSome then
    let p1 := { p with workers := assignFree p.workers m now }
    (p1.post_task_start m).1
  else
    { p with queued_messages := p.queued_messages ++ [m],
             events := { p.events with management_event := true } }

/-- Python `list.remove(x)`: drop the first entry `==` to `x`. -/
def removeFirst (l : List Msg) (m : Msg) : List Msg :=
  match l with
  | [] => []
  | x :: rest => if Msg.pyEq x m then rest else x :: removeFirst rest m

/-- Result of a `drain_queue` run: final pool state, how many messages
were dispatched, and whether the run returned early out of the loop
(no free worker or shutting down) instead of exhausting the unblocked
messages.  Fuel exhaustion is also flagged `early`. -/
structure DrainResult where
  pool : WorkerPool
  dispatched : Nat
  early : Bool
deriving DecidableEq

/-- Loop body of `WorkerPool.drain_queue`, with fuel for termination.
One fuel unit per loop iteration; `drain_queue` supplies more fuel than
iterations are possible, so the fuel-out branch is unreachable there. -/
def drainAux (fuel : Nat) (p : WorkerPool) (dispatched : Nat) (now : Int) : DrainResult :=
  match fuel with
  | 0 => ⟨p, dispatched, true⟩
  | fuel' + 1 =>
    match p.get_unblocked_message with
    | none =>
      if 0 < dispatched then
        ⟨{ p with events := { p.events with queue_cleared := true } }, dispatched, false⟩
      else ⟨p, dispatched, false⟩
    | some m =>
      if p.get_free_worker.isNone || p.shutting_down then ⟨p, dispatched, true⟩
      else
        let p1 := { p with queued_messages := removeFirst p.queued_messages m }
        drainAux fuel' (p1.dispatch_task m now) (dispatched + 1) now

/-- Embeds `WorkerPool.drain_queue`: repeatedly dispatch unblocked queued
messages while a free worker exists and the pool is not shutting down;
set `queue_cleared` only when the loop exhausts the unblocked messages
after having dispatched work. -/
def WorkerPool.drain_queue (p : WorkerPool) (now : Int) : DrainResult :=
  drainAux (p.queued_messages.length + 1) p 0 now

/-- Embeds `WorkerPool.up`: create (but do not spawn) a worker with the next id. -/
def WorkerPool.up (p : WorkerPool) (now : Int) : WorkerPool :=
  { p with workers := p.workers ++ [mkWorker p.next_worker_id now],
           next_worker_id := p.next_worker_id + 1 }

/-- Iterated `up()` calls of the min-workers branch of `scale_workers`. -/
def upN (p : WorkerPool) (k : Nat) (now : Int) : WorkerPool :=
  match k with
  | 0 => p
  | k' + 1 => upN (p.up now) k' now

/-- The count `len([w for w in workers.values() if w.counts_for_capacity])`
used by `scale_workers` and `should_scale_down`. -/
def WorkerPool.capacityCount (p : WorkerPool) : Nat :=
  (p.workers.filter (fun w => w.counts_for_capacity)).length

/-- Embeds `WorkerPool.should_scale_down`: the last use of the current capacity
count is truthy and older than `scaledown_wait`. -/
def WorkerPool.should_scale_down (p : WorkerPool) (now : Int) : Bool :=
  match getLast p.last_used_by_ct p.capacityCount with
  | some (some t) => t != 0 && decide (now - t > p.scaledown_wait)
  | _ => false

/-- Scale-down branch of `scale_workers`: `signal_stop` the first
available (capacity-counting) worker with no current task. -/
def signalFirstIdle (ws : List PoolWorker) (now : Int) : List PoolWorker :=
  match ws with
  | [] => []
  | w :: rest =>
    if w.counts_for_capacity && w.current_task.isNone then w.signal_stop now :: rest
    else w :: signalFirstIdle rest now

/-- Embeds `WorkerPool.scale_workers`: scale up to `min_workers`, add one worker
under queue pressure while below `max_workers`, or retire one idle worker
when above `min_workers` and idle long enough. -/
def WorkerPool.scale_workers (p : WorkerPool) (now : Int) : WorkerPool :=
  let worker_ct := p.capacityCount
  if worker_ct < p.min_workers then upN p (p.min_workers - worker_ct) now
  else if worker_ct < p.active_task_ct then
    if worker_ct < p.max_workers then p.up now else p
  else if p.min_workers < worker_ct then
    if p.should_scale_down now then { p with workers := signalFirstIdle p.workers now }
    else p
  else p

/-- Replace the worker with the given id (used for in-place mutation of a
worker object found in the fleet). -/
def WorkerPool.updateWorkerById (p : WorkerPool) (wid : Nat)
    (f : PoolWorker → PoolWorker) : WorkerPool :=
  { p with workers := p.workers.map (fun w => if w.worker_id == wid then f w else w) }

/-- Iteration of `manage_new_workers` over the fleet snapshot: start every
`initialized` worker, draining the queue after each start. -/
def manageNewGo (p : WorkerPool) (ids : List Nat) (now : Int) : WorkerPool :=
  match ids with
  | [] => p
  | wid :: rest =>
    let isInit := match p.workers.find? (fun w => w.worker_id == wid) with
      | some w => w.status == Status.initialized
      | none => false
    let p1 := if isInit then
        ((p.updateWorkerById wid PoolWorker.start).drain_queue now).pool
      else p
    manageNewGo p1 rest now

/-- Embeds `WorkerPool.manage_new_workers`. -/
def WorkerPool.manage_new_workers (p : WorkerPool) (now : Int) : WorkerPool :=
  manageNewGo p (p.workers.map (fun w => w.worker_id)) now

/-- One worker of the `manage_old_workers` scan: stop exited workers, stop
workers stuck `stopping` past `worker_stop_wait`, and flag long-retired
workers for removal (the boolean). -/
def manageOldStep (p : WorkerPool) (now : Int) (w : PoolWorker) : PoolWorker × Bool :=
  if w.status == Status.exited then (w.stop now, false)
  else if w.status == Status.stopping &&
      (match w.stopping_at with
       | some t => t != 0 && decide (now - t > p.worker_stop_wait)
       | none => false) then (w.stop now, false)
  else if (w.status == Status.retired || w.status == Status.error) &&
      (match w.retired_at with
       | some t => t != 0 && decide (now - t > p.worker_removal_wait)
       | none => false) then (w, true)
  else (w, false)

/-- Embeds `WorkerPool.manage_old_workers`: the scan above, then removal of the
flagged workers from the fleet. -/
def WorkerPool.manage_old_workers (p : WorkerPool) (now : Int) : WorkerPool :=
  let stepped := p.workers.map (manageOldStep p now)
  { p with workers := (stepped.filter (fun x => !x.2)).map (fun x => x.1) }

/-- One pass of the `manage_workers` loop body: scale, start new workers,
reap old ones, then clear `management_event`.  The loop runs only while
not shutting down. -/
def WorkerPool.managementPass (p : WorkerPool) (now : Int) : WorkerPool :=
  if p.shutting_down then p
  else
    let p3 := ((p.scale_workers now).manage_new_workers now).manage_old_workers now
    { p3 with events := { p3.events with management_event := false } }

/-- Embeds `WorkerPool.stop_workers`: `signal_stop` every worker of the fleet,
then `stop` every worker. -/
def WorkerPool.stop_workers (p : WorkerPool) (now : Int) : WorkerPool :=
  let ws1 := p.workers.map (fun w => w.signal_stop now)
  { p with workers := ws1.map (fun w => w.stop now) }

/-- Embeds `WorkerPool.shutdown`: set `shutting_down`, wake the management loop,
then `stop_workers`.  (The timeout-runner shutdown, the stop sentinel and
the awaiting of the internal tasks change no modelled pool state.) -/
def WorkerPool.shutdown (p : WorkerPool) (now : Int) : WorkerPool :=
  let p1 := { p with shutting_down := true,
                     events := { p.events with management_event := true } }
  p1.stop_workers now

/-- The `event == 'shutdown'` arm of `read_results_forever`: mark the
worker `exited` and latch its exit event under the management lock; then
return (the boolean) iff shutting down with every worker inactive, and set
`management_event` iff not shutting down.  `none` models the `KeyError`
on an unknown worker id.  `handleExitTail` is the part of the arm that
follows the locked status update. -/
def handleExitTail (p1 : WorkerPool) : Option (WorkerPool × Bool) :=
  if p1.shutting_down then
    if p1.workers.all (fun w => w.inactive) then some (p1, true)
    else some (p1, false)
  else some ({ p1 with events := { p1.events with management_event := true } }, false)

def WorkerPool.handle_exit_event (p : WorkerPool) (wid : Nat) :
    Option (WorkerPool × Bool) :=
  if (p.workers.find? (fun w => w.worker_id == wid)).isNone then none
  else handleExitTail (p.updateWorkerById wid
    (fun w => { w with status := Status.exited, exit_msg_event := true }))

/-- Pool states reachable from a fresh pool through passes of the
management loop and calls of `dispatch_task` (workers are created only by
`up()` inside `scale_workers`). -/
inductive Reach : WorkerPool → Prop where
  | init (minW maxW : Nat) (h : minW ≤ maxW) : Reach (WorkerPool.init minW maxW)
  | mgmt (p : WorkerPool) (now : Int) : Reach p → Reach (p.managementPass now)
  | disp (p : WorkerPool) (m : Msg) (now : Int) : Reach p → Reach (p.dispatch_task m now)

/-- Spec-side blocking decision, written from the words of spec section 4.4
as a refinement target: two messages match iff their (task, args, kwargs)
triples are structurally equal; `parallel` (also the default and the
treatment of unknown values) runs, `serial` queues iff a match is running,
`queue_one` discards iff a match is queued else queues iff a match is
running, `discard` discards iff a match is running or queued. -/
def specBlockingAction (p : WorkerPool) (m : Msg) : String :=
  let running := p.running_tasks.any (fun r => Msg.dupKeyEq r m)
  let queued := p.queued_messages.any (fun q => Msg.dupKeyEq q m)
  match m.on_duplicate with
  | none => "run"
  | some od =>
    if od = "serial" then
      if running then "queue" else "run"
    else if od = "queue_one" then
      if queued then "discard" else if running then "queue" else "run"
    else if od = "discard" then
      if running || queued then "discard" else "run"
    else "run"

/-! Concrete states used by counterexamples, code-bug evaluations and
witnesses. -/

def taskMsg : Msg := ⟨1, some "test-task-123", some 10, none, none, none, none⟩

def otherMsg : Msg := ⟨2, none, some 20, none, none, none, none⟩

def zeroTimeoutMsg : Msg := ⟨3, none, some 10, none, none, some 0, none⟩

/-- A worker that is `ready`, holds a task, and whose subprocess has died. -/
def deadBusyWorker : PoolWorker :=
  { mkWorker 0 0 with status := Status.ready, alive := false, current_task := some taskMsg }

def deadBusyPool : WorkerPool :=
  { WorkerPool.init 1 5 with workers := [deadBusyWorker] }

def freeWorker : PoolWorker :=
  { mkWorker 0 0 with status := Status.ready, alive := true }

def startingWorker : PoolWorker :=
  { mkWorker 0 0 with status := Status.starting, alive := true }

def readyWorker1 : PoolWorker :=
  { mkWorker 1 0 with status := Status.ready, alive := true }

def retiredWorker : PoolWorker :=
  { mkWorker 0 0 with status := Status.retired, alive := false,
                      stopping_at := some 90, retired_at := some 100 }

def errorWorker : PoolWorker :=
  { mkWorker 0 0 with status := Status.error, alive := false }

def zeroTimeoutWorker : PoolWorker :=
  { mkWorker 0 0 with status := Status.ready, current_task := some zeroTimeoutMsg,
                      started_at := some 5 }

def retiredPool : WorkerPool := { WorkerPool.init 1 4 with workers := [retiredWorker] }

def errorPool : WorkerPool := { WorkerPool.init 1 4 with workers := [errorWorker] }

def twoQueuedPool : WorkerPool :=
  { WorkerPool.init 1 4 with workers := [freeWorker], queued_messages := [taskMsg, otherMsg] }

def oneQueuedPool : WorkerPool :=
  { WorkerPool.init 1 4 with workers := [freeWorker], queued_messages := [taskMsg] }

def shuttingExitPool : WorkerPool :=
  { WorkerPool.init 1 4 with workers := [startingWorker, readyWorker1],
                             shutting_down := true }

def readyExitPool : WorkerPool := { WorkerPool.init 1 4 with workers := [readyWorker1] }

def selfQueuedPool : WorkerPool := { WorkerPool.init 1 4 with queued_messages := [taskMsg] }

/-- C1: `manage_old_workers` performs no liveness check at all.  On a
fleet holding a `ready` worker whose process is dead and which holds a
current task, one pass leaves the entire pool unchanged: the worker stays
`ready`, `retired_at` stays unset and `canceled_count` stays 0, while the
claim (and the repository's own test `test_detect_unexpectedly_dead_worker`)
requires status `error`, `retired_at` set and `canceled_count = 1`. -/
theorem c1_manage_old_workers_no_liveness_check :
    deadBusyPool.manage_old_workers 100 = deadBusyPool ∧
    (deadBusyPool.manage_old_workers 100).canceled_count = 0 ∧
    ((deadBusyPool.manage_old_workers 100).workers.map (fun w => w.status))
      = [Status.ready] ∧
    ((deadBusyPool.manage_old_workers 100).workers.map (fun w => w.retired_at))
      = [none] := by
  decide

/-- C2 counterexample: a second `shutdown()` call does not leave a
`retired` worker's state unchanged.  `stop_workers` runs `signal_stop`
and `stop` on every worker regardless of status, so the second call (at
monotonic time 200) rewrites the worker's `stopping_at` and `retired_at`
from 100 to 200, and the two-call state differs from the one-call state. -/
theorem c2_second_shutdown_changes_retired_worker :
    WorkerPool.shutdown (WorkerPool.shutdown retiredPool 100) 200
      ≠ WorkerPool.shutdown retiredPool 100 ∧
    ((WorkerPool.shutdown retiredPool 100).workers.map
      (fun w => (w.stopping_at, w.retired_at))) = [(some 100, some 100)] ∧
    ((WorkerPool.shutdown (WorkerPool.shutdown retiredPool 100) 200).workers.map
      (fun w => (w.stopping_at, w.retired_at))) = [(some 200, some 200)] := by
  decide

/-- C3 counterexample: `stop_workers` (hence `shutdown`) does move a
worker out of `error` without deleting it: `signal_stop` unconditionally
sets `stopping`, after which `stop` drives the worker (whose process is
dead) to `retired`. -/
theorem c3_stop_workers_moves_error_worker :
    errorPool.workers.map (fun w => w.status) = [Status.error] ∧
    ((errorPool.stop_workers 0).workers.map (fun w => w.status))
      = [Status.retired] := by
  decide

/-- C6 counterexample: a `drain_queue` run that dispatches one message and
then stops early (second unblocked message present but no free worker
remains) returns without setting `queue_cleared`, because the early
`return` inside the loop bypasses the final `if work_done` check. -/
theorem c6_early_return_skips_queue_cleared :
    0 < (twoQueuedPool.drain_queue 0).dispatched ∧
    (twoQueuedPool.drain_queue 0).early = true ∧
    (twoQueuedPool.drain_queue 0).pool.events.queue_cleared = false := by
  decide

/-- C7 counterexample: when the pool is shutting down and some worker is
still active, consuming a worker-shutdown result neither returns nor sets
`management_event` (the code only logs in that case, while the claim says
`management_event` is set in every non-returning case). -/
theorem c7_shutdown_event_no_management_kick :
    (shuttingExitPool.handle_exit_event 0).map
      (fun r => (r.2, r.1.events.management_event)) = some (false, false) := by
  decide

/-- C9: `next_wakeup` is `none` whenever `is_active_cancel` is set, and
also whenever the current task carries `timeout` 0 (a falsy value), even
though `post_task_start` kicks the timeout runner for any message with a
`timeout` key — so a task submitted with timeout 0 never produces a
timeout wakeup. -/
theorem c9_next_wakeup_none_for_cancel_and_zero_timeout :
    ∀ (w : PoolWorker) (m : Msg) (p : WorkerPool),
      (w.is_active_cancel = true → w.next_wakeup = none) ∧
      (w.current_task = some m → m.timeout = some 0 → w.next_wakeup = none) ∧
      (m.timeout = some 0 → (p.post_task_start m).2 = true) := by
  intro w m p
  refine ⟨?_, ?_, ?_⟩
  · intro h
    simp [PoolWorker.next_wakeup, h]
  · intro hct ht
    by_cases hc : w.is_active_cancel
    · simp [PoolWorker.next_wakeup, hc]
    · cases hs : w.started_at with
      | none => simp [PoolWorker.next_wakeup, hc, hct, hs]
      | some s => simp [PoolWorker.next_wakeup, hc, hct, hs, ht]
  · intro ht
    simp [WorkerPool.post_task_start, ht]

/-- Witness for C9 at a concrete worker running a timeout-0 task. -/
theorem c9_witness :
    zeroTimeoutWorker.next_wakeup = none ∧
    ((WorkerPool.init 1 4).post_task_start zeroTimeoutMsg).2 = true :=
  ⟨(c9_next_wakeup_none_for_cancel_and_zero_timeout zeroTimeoutWorker zeroTimeoutMsg
      (WorkerPool.init 1 4)).2.1 (by decide) (by decide),
   (c9_next_wakeup_none_for_cancel_and_zero_timeout zeroTimeoutWorker zeroTimeoutMsg
      (WorkerPool.init 1 4)).2.2 (by decide)⟩

/-- C10: `_duplicate_in_list` skips the candidate that is the probed
message itself, so a message whose only structurally-equal occupant of the
queue is itself is not `already_queued`; consequently, re-evaluating
blocking while the message still sits in the queue cannot queue or discard
it on account of itself (the action is run whenever no distinct running
match exists either). -/
theorem c10_message_not_its_own_duplicate :
    ∀ (p : WorkerPool) (m : Msg),
      m ∈ p.queued_messages →
      (∀ o ∈ p.queued_messages, Msg.dupKeyEq o m = true → o.oid = m.oid) →
      p.already_queued m = false ∧
      (p.already_running m = false →
        p.get_blocking_action m = MessageAction.run) := by
  intro p m _hm h
  have hq : p.already_queued m = false := by
    unfold WorkerPool.already_queued duplicate_in_list
    rw [List.any_eq_false]
    intro o ho hcontra
    rw [Bool.and_eq_true] at hcontra
    have hoid := h o ho hcontra.2
    simp [hoid] at hcontra
  refine ⟨hq, ?_⟩
  intro hr
  simp [WorkerPool.get_blocking_action, hr, hq]

/-- Witness for C10: a pool whose queue holds exactly the probed message. -/
theorem c10_witness :
    selfQueuedPool.already_queued taskMsg = false ∧
    selfQueuedPool.get_blocking_action taskMsg = MessageAction.run :=
  ⟨(c10_message_not_its_own_duplicate selfQueuedPool taskMsg (by decide) (by decide)).1,
   (c10_message_not_its_own_duplicate selfQueuedPool taskMsg (by decide)
      (by decide)).2 (by decide)⟩

/-- C3 amended: `stop()` really does leave a `retired`/`error` worker
entirely unchanged (its early return), and within `manage_old_workers`
such a worker is only ever deleted, never altered; but `signal_stop` —
and therefore `stop_workers` and `shutdown`, which invoke it on every
worker of the fleet — unconditionally moves any worker to `stopping`. -/
theorem c3_amended_stop_preserves_terminal_workers :
    ∀ (w : PoolWorker) (now : Int) (p : WorkerPool),
      (w.status = Status.retired ∨ w.status = Status.error) →
      w.stop now = w ∧ (manageOldStep p now w).1 = w ∧
        (w.signal_stop now).status = Status.stopping := by
  intro w now p h
  refine ⟨?_, ?_, ?_⟩
  · unfold PoolWorker.stop
    rw [if_pos h]
  · have h1 : (w.status == Status.exited) = false := by
      rcases h with h | h <;> simp [h]
    have h2 : (w.status == Status.stopping) = false := by
      rcases h with h | h <;> simp [h]
    unfold manageOldStep
    rw [if_neg (by simp [h1]), if_neg (by simp [h2])]
    split <;> rfl
  · unfold PoolWorker.signal_stop PoolWorker.cancel
    cases w.current_task.isSome <;> simp

/-- Witness for the amended C3 at a concrete retired worker. -/
theorem c3_amended_witness :
    retiredWorker.stop 0 = retiredWorker ∧
    (manageOldStep retiredPool 0 retiredWorker).1 = retiredWorker ∧
    (retiredWorker.signal_stop 0).status = Status.stopping :=
  c3_amended_stop_preserves_terminal_workers retiredWorker 0 retiredPool
    (Or.inl (by decide))

/-- When no entry of the list is the probed message itself, the identity
skip of `_duplicate_in_list` is vacuous and the check is a plain
structural-match scan. -/
theorem dup_skip_eq_any (m : Msg) :
    ∀ (l : List Msg), (∀ o ∈ l, o.oid ≠ m.oid) →
      duplicate_in_list m l = l.any (fun o => Msg.dupKeyEq o m) := by
  intro l
  induction l with
  | nil => intro _; rfl
  | cons o rest ih =>
    intro h
    have hb : (o.oid != m.oid) = true := by
      simpa using h o (by simp)
    simp only [duplicate_in_list, List.any_cons] at ih ⊢
    rw [hb]
    simp only [Bool.true_and]
    rw [ih (fun o' ho' => h o' (by simp [ho']))]

/-- C4: for an incoming message — one that is not itself (by object
identity) an occupant of the queue or of a worker's `current_task` — the
blocking decision of `get_blocking_action` coincides with the decision
table of spec section 4.4 (`specBlockingAction`), with matching taken as
structural equality of the (task, args, kwargs) triples. -/
theorem c4_blocking_decision_matches_table :
    ∀ (p : WorkerPool) (m : Msg),
      (∀ o ∈ p.queued_messages, o.oid ≠ m.oid) →
      (∀ r ∈ p.running_tasks, r.oid ≠ m.oid) →
      p.get_blocking_action m = specBlockingAction p m := by
  intro p m hq hr
  have hQ := dup_skip_eq_any m p.queued_messages hq
  have hR := dup_skip_eq_any m p.running_tasks hr
  simp only [WorkerPool.get_blocking_action, specBlockingAction,
    WorkerPool.already_running, WorkerPool.already_queued, hQ, hR,
    DuplicateBehavior.parallel, DuplicateBehavior.serial,
    DuplicateBehavior.discard, DuplicateBehavior.queue_one,
    MessageAction.run, MessageAction.queue, MessageAction.discard]
  cases hod : m.on_duplicate with
  | none => simp
  | some od =>
    simp only [Option.getD]
    by_cases h1 : od = "serial"
    · simp [h1]
    · by_cases h2 : od = "discard"
      · simp [h1, h2]
      · by_cases h3 : od = "queue_one"
        · simp [h1, h2, h3]
        · simp [h1, h2, h3]

/-- Witness for C4 on an empty pool (freshness hypotheses vacuous). -/
theorem c4_witness :
    (WorkerPool.init 1 4).get_blocking_action taskMsg
      = specBlockingAction (WorkerPool.init 1 4) taskMsg :=
  c4_blocking_decision_matches_table (WorkerPool.init 1 4) taskMsg
    (by simp [WorkerPool.init]) (by simp [WorkerPool.init, WorkerPool.running_tasks])

/-- C5: `dispatch_task` is total and takes exactly one of three outcomes —
it increments `discard_count` by one leaving queue and workers untouched,
or it appends the message to the queue leaving workers and `discard_count`
untouched (duplicate queue policy, shutdown, or no free worker), or it
hands the message to the first free ready worker via `start_task`
(`assignFree`) leaving queue and `discard_count` untouched; the three
descriptions are pairwise incompatible, so exactly one holds. -/
theorem c5_dispatch_trichotomy :
    ∀ (p : WorkerPool) (m : Msg) (now : Int),
      ((p.dispatch_task m now).discard_count = p.discard_count + 1 ∧
       (p.dispatch_task m now).queued_messages = p.queued_messages ∧
       (p.dispatch_task m now).workers = p.workers) ∨
      ((p.dispatch_task m now).discard_count = p.discard_count ∧
       (p.dispatch_task m now).queued_messages = p.queued_messages ++ [m] ∧
       (p.dispatch_task m now).workers = p.workers) ∨
      ((p.dispatch_task m now).discard_count = p.discard_count ∧
       (p.dispatch_task m now).queued_messages = p.queued_messages ∧
       (p.dispatch_task m now).workers = assignFree p.workers m now ∧
       p.get_free_worker.isSome = true ∧ p.shutting_down = false) := by
  intro p m now
  simp only [WorkerPool.dispatch_task]
  split_ifs with h1 h2 h3 h4
  · exact Or.inl ⟨rfl, rfl, rfl⟩
  · exact Or.inr (Or.inl ⟨rfl, rfl, rfl⟩)
  · exact Or.inr (Or.inl ⟨rfl, rfl, rfl⟩)
  · refine Or.inr (Or.inr ⟨rfl, rfl, rfl, h4, ?_⟩)
    simpa using h2
  · exact Or.inr (Or.inl ⟨rfl, rfl, rfl⟩)

/-- A drain loop that ends by exhausting the unblocked messages (not by
the early return) after at least one dispatch sets `queue_cleared`. -/
theorem drainAux_cleared :
    ∀ (fuel : Nat) (p : WorkerPool) (d : Nat) (now : Int),
      (drainAux fuel p d now).early = false →
      0 < (drainAux fuel p d now).dispatched →
      (drainAux fuel p d now).pool.events.queue_cleared = true := by
  intro fuel
  induction fuel with
  | zero =>
    intro p d now h
    simp [drainAux] at h
  | succ n ih =>
    intro p d now
    rw [drainAux]
    cases hu : p.get_unblocked_message with
    | none =>
      by_cases hdz : 0 < d
      · intro _ _
        simp [hdz]
      · intro _ hd
        simp [hdz] at hd
    | some m =>
      by_cases hs : (p.get_free_worker.isNone || p.shutting_down) = true
      · intro h _
        simp [hs] at h
      · have hs' : (p.get_free_worker.isNone || p.shutting_down) = false := by
          cases hb : (p.get_free_worker.isNone || p.shutting_down)
          · rfl
          · exact absurd hb hs
        simp only [hs', Bool.false_eq_true, if_false]
        intro h hd
        exact ih _ _ _ h hd

/-- C6 amended: whenever `drain_queue` dispatches at least one message and
its loop ends because no unblocked message remains (it did not take the
early return for a missing free worker or shutdown), it sets
`queue_cleared` before returning; early-stopping runs return without
setting it (see the counterexample). -/
theorem c6_amended_normal_drain_sets_queue_cleared :
    ∀ (p : WorkerPool) (now : Int),
      (p.drain_queue now).early = false →
      0 < (p.drain_queue now).dispatched →
      (p.drain_queue now).pool.events.queue_cleared = true := by
  intro p now
  exact drainAux_cleared _ p 0 now

/-- Witness for the amended C6: one queued message, one free worker; the
drain dispatches it, exhausts the queue and sets `queue_cleared`. -/
theorem c6_amended_witness :
    (oneQueuedPool.drain_queue 0).pool.events.queue_cleared = true :=
  c6_amended_normal_drain_sets_queue_cleared oneQueuedPool 0 (by decide) (by decide)

/-- C7 amended: consuming a `{worker, event: shutdown}` result for a known
worker id marks that worker `exited` with its exit latch set, returns iff
the pool is shutting down and every worker is inactive, and sets
`management_event` iff the pool is not shutting down (when shutting down
with an active worker remaining, the loop only logs and continues). -/
theorem c7_amended_shutdown_event_behaviour :
    ∀ (p : WorkerPool) (wid : Nat),
      (p.workers.find? (fun w => w.worker_id == wid)).isSome = true →
      ∃ q ret, p.handle_exit_event wid = some (q, ret) ∧
        (∀ w ∈ q.workers, w.worker_id = wid →
          w.status = Status.exited ∧ w.exit_msg_event = true) ∧
        (ret = true ↔ (p.shutting_down = true ∧
          q.workers.all (fun w => w.inactive) = true)) ∧
        q.events.management_event = (p.events.management_event || !p.shutting_down) := by
  intro p wid hfind
  have hmarked : ∀ w ∈ (p.updateWorkerById wid
      (fun w => { w with status := Status.exited, exit_msg_event := true })).workers,
      w.worker_id = wid → w.status = Status.exited ∧ w.exit_msg_event = true := by
    intro w hw hid
    rcases List.mem_map.1 hw with ⟨w0, _hw0, rfl⟩
    by_cases hb : (w0.worker_id == wid) = true
    · simp [hb]
    · rw [if_neg hb] at hid ⊢
      exact absurd (by simpa using hid) (by simpa using hb)
  have hsd1 : (p.updateWorkerById wid
      (fun w => { w with status := Status.exited, exit_msg_event := true })).shutting_down
        = p.shutting_down := rfl
  have hev1 : (p.updateWorkerById wid
      (fun w => { w with status := Status.exited, exit_msg_event := true })).events
        = p.events := rfl
  have hnone : (p.workers.find? (fun w => w.worker_id == wid)).isNone = false := by
    cases hfe : p.workers.find? (fun w => w.worker_id == wid) with
    | none => rw [hfe] at hfind; simp at hfind
    | some w => rfl
  unfold WorkerPool.handle_exit_event
  rw [if_neg (by simp [hnone])]
  unfold handleExitTail
  rw [hsd1]
  by_cases hsd : p.shutting_down = true
  · rw [if_pos hsd]
    by_cases hall : ((p.updateWorkerById wid
        (fun w => { w with status := Status.exited, exit_msg_event := true })).workers.all
          (fun w => w.inactive)) = true
    · rw [if_pos hall]
      exact ⟨_, _, rfl, hmarked, by simp [hsd, hall], by simp [hsd, hev1]⟩
    · rw [if_neg hall]
      exact ⟨_, _, rfl, hmarked, by simp [hsd, hall], by simp [hsd, hev1]⟩
  · rw [if_neg hsd]
    have hsd' : p.shutting_down = false := by simpa using hsd
    exact ⟨_, _, rfl, hmarked, by simp [hsd'], by simp [hsd', hev1]⟩

/-- Within one monotonic instant, running `signal_stop` then `stop` on a
worker is idempotent: the second round re-traces the same transitions and
rewrites the same timestamps with the same values. -/
theorem sigstop_idem (now : Int) (w : PoolWorker) :
    PoolWorker.stop (PoolWorker.signal_stop
      (PoolWorker.stop (PoolWorker.signal_stop w now) now) now) now
      = PoolWorker.stop (PoolWorker.signal_stop w now) now := by
  unfold PoolWorker.stop PoolWorker.signal_stop PoolWorker.cancel
  cases hct : w.current_task <;> cases he : w.exit_msg_event <;>
    cases ha : w.alive <;> cases hk : w.killable <;>
      simp [hct, he, ha, hk]

/-- Helper: `stop_workers` applied twice at the same instant equals one
application, worker by worker. -/
theorem stop_sig_maps_idem (now : Int) :
    ∀ (ws : List PoolWorker),
      List.map (fun w => PoolWorker.stop w now)
        (List.map (fun w => PoolWorker.signal_stop w now)
          (List.map (fun w => PoolWorker.stop w now)
            (List.map (fun w => PoolWorker.signal_stop w now) ws)))
      = List.map (fun w => PoolWorker.stop w now)
          (List.map (fun w => PoolWorker.signal_stop w now) ws) := by
  intro ws
  induction ws with
  | nil => rfl
  | cons w ws ih =>
    simp only [List.map_cons, List.cons.injEq]
    exact ⟨sigstop_idem now w, ih⟩

/-- C2 amended: two `shutdown()` calls at the same monotonic instant have
the same effect as one — both re-drive every worker through `signal_stop`
and `stop`, ending at the same state.  At a later instant, however, the
second call is not a no-op: it re-signals every worker, driving a
`retired`/`error` worker through `stopping` and rewriting its
`stopping_at` and `retired_at` with the later time (counterexample
`c2_second_shutdown_changes_retired_worker`); `shutting_down` being
already set does not short-circuit `stop_workers`. -/
theorem c2_amended_shutdown_idempotent_at_fixed_time :
    ∀ (p : WorkerPool) (now : Int),
      WorkerPool.shutdown (WorkerPool.shutdown p now) now
        = WorkerPool.shutdown p now := by
  intro p now
  simp only [WorkerPool.shutdown, WorkerPool.stop_workers]
  rw [stop_sig_maps_idem]

/-- Helper: `stop` never produces a capacity-counting worker: every path ends in
`retired` or `error`, and the early return applies only to workers already
in those statuses. -/
theorem stop_capacity_false (w : PoolWorker) (now : Int) :
    (w.stop now).counts_for_capacity = false := by
  cases hs : w.status <;> cases he : w.exit_msg_event <;> cases ha : w.alive <;>
    cases hk : w.killable <;> cases hct : w.current_task <;>
      simp [PoolWorker.stop, PoolWorker.signal_stop, PoolWorker.cancel,
        PoolWorker.counts_for_capacity, hs, he, ha, hk, hct]

/-- Helper: `signal_stop` never produces a capacity-counting worker. -/
theorem signal_capacity_false (w : PoolWorker) (now : Int) :
    (w.signal_stop now).counts_for_capacity = false := by
  cases hct : w.current_task <;>
    simp [PoolWorker.signal_stop, PoolWorker.cancel,
      PoolWorker.counts_for_capacity, hct]

/-- Helper: `start` cannot turn a non-capacity worker into a capacity one. -/
theorem start_capacity_le (w : PoolWorker) :
    (w.start).counts_for_capacity = true → w.counts_for_capacity = true := by
  unfold PoolWorker.start
  split_ifs with h1 h2
  · exact id
  · intro _
    have hs : w.status = Status.initialized := by simpa using h1
    simp [PoolWorker.counts_for_capacity, hs]
  · intro hc
    simp [PoolWorker.counts_for_capacity] at hc

/-- Mapping a function that never creates capacity cannot increase the
capacity count of a fleet. -/
theorem filter_cap_map_le (f : PoolWorker → PoolWorker)
    (h : ∀ w, (f w).counts_for_capacity = true → w.counts_for_capacity = true) :
    ∀ ws : List PoolWorker,
      ((ws.map f).filter (fun w => w.counts_for_capacity)).length
        ≤ (ws.filter (fun w => w.counts_for_capacity)).length := by
  intro ws
  induction ws with
  | nil => simp
  | cons w ws ih =>
    rw [List.map_cons, List.filter_cons, List.filter_cons]
    cases hf : (f w).counts_for_capacity <;> cases hw : w.counts_for_capacity
    · simpa [hf, hw] using ih
    · simpa [hf, hw] using Nat.le_succ_of_le ih
    · exact absurd (h w hf) (by simp [hw])
    · simpa [hf, hw] using Nat.succ_le_succ ih

/-- Helper: `signalFirstIdle` cannot increase the capacity count. -/
theorem signalFirstIdle_cap_le (now : Int) :
    ∀ ws : List PoolWorker,
      ((signalFirstIdle ws now).filter (fun w => w.counts_for_capacity)).length
        ≤ (ws.filter (fun w => w.counts_for_capacity)).length := by
  intro ws
  induction ws with
  | nil => simp [signalFirstIdle]
  | cons w ws ih =>
    rw [signalFirstIdle]
    by_cases hc : (w.counts_for_capacity && w.current_task.isNone) = true
    · rw [if_pos hc, List.filter_cons, List.filter_cons, signal_capacity_false]
      cases hw : w.counts_for_capacity <;> simp [hw]
    · rw [if_neg hc, List.filter_cons, List.filter_cons]
      cases hw : w.counts_for_capacity <;> simpa [hw] using Nat.succ_le_succ ih

/-- Helper: `assignFree` does not change the capacity count (only `current_task`
and `started_at` of one worker). -/
theorem assignFree_filter_cap (m : Msg) (now : Int) :
    ∀ ws : List PoolWorker,
      ((assignFree ws m now).filter (fun w => w.counts_for_capacity)).length
        = (ws.filter (fun w => w.counts_for_capacity)).length := by
  intro ws
  induction ws with
  | nil => rfl
  | cons w ws ih =>
    rw [assignFree]
    by_cases hc : (w.current_task.isNone && w.status == Status.ready) = true
    · rw [if_pos hc, List.filter_cons, List.filter_cons]
      have hcap : (w.start_task m now).counts_for_capacity = w.counts_for_capacity := rfl
      rw [hcap]
      cases hw : w.counts_for_capacity <;> simp [hw]
    · rw [if_neg hc, List.filter_cons, List.filter_cons]
      cases hw : w.counts_for_capacity <;> simp [hw, ih]

/-- Helper: `up` adds exactly one capacity-counting worker. -/
theorem up_cap (p : WorkerPool) (now : Int) :
    (p.up now).capacityCount = p.capacityCount + 1 := by
  have hmk : (mkWorker p.next_worker_id now).counts_for_capacity = true := rfl
  simp [WorkerPool.up, WorkerPool.capacityCount, List.filter_append, hmk]

/-- Helper: `upN` adds exactly `k` capacity-counting workers. -/
theorem upN_cap (now : Int) :
    ∀ (k : Nat) (p : WorkerPool),
      (upN p k now).capacityCount = p.capacityCount + k := by
  intro k
  induction k with
  | zero => intro p; rfl
  | succ k ih =>
    intro p
    show (upN (p.up now) k now).capacityCount = p.capacityCount + (k + 1)
    rw [ih, up_cap]
    omega

/-- Helper: `upN` leaves the worker bounds unchanged. -/
theorem upN_fields (now : Int) :
    ∀ (k : Nat) (p : WorkerPool),
      (upN p k now).max_workers = p.max_workers ∧
      (upN p k now).min_workers = p.min_workers := by
  intro k
  induction k with
  | zero => intro p; exact ⟨rfl, rfl⟩
  | succ k ih =>
    intro p
    show (upN (p.up now) k now).max_workers = p.max_workers ∧
      (upN (p.up now) k now).min_workers = p.min_workers
    exact ih (p.up now)

/-- Helper: `dispatch_task` changes neither the capacity count nor the bounds. -/
theorem dispatch_inv (p : WorkerPool) (m : Msg) (now : Int) :
    (p.dispatch_task m now).capacityCount = p.capacityCount ∧
    (p.dispatch_task m now).max_workers = p.max_workers ∧
    (p.dispatch_task m now).min_workers = p.min_workers := by
  simp only [WorkerPool.dispatch_task]
  split_ifs
  · exact ⟨rfl, rfl, rfl⟩
  · exact ⟨rfl, rfl, rfl⟩
  · exact ⟨rfl, rfl, rfl⟩
  · refine ⟨?_, rfl, rfl⟩
    simp only [WorkerPool.capacityCount, WorkerPool.post_task_start]
    exact assignFree_filter_cap m now p.workers
  · exact ⟨rfl, rfl, rfl⟩

/-- A drain run changes neither the capacity count nor the bounds. -/
theorem drainAux_pool_inv :
    ∀ (fuel : Nat) (p : WorkerPool) (d : Nat) (now : Int),
      (drainAux fuel p d now).pool.capacityCount = p.capacityCount ∧
      (drainAux fuel p d now).pool.max_workers = p.max_workers ∧
      (drainAux fuel p d now).pool.min_workers = p.min_workers := by
  intro fuel
  induction fuel with
  | zero => intro p d now; exact ⟨rfl, rfl, rfl⟩
  | succ n ih =>
    intro p d now
    rw [drainAux]
    cases hu : p.get_unblocked_message with
    | none =>
      by_cases hdz : 0 < d
      · exact ⟨by simp [hdz, WorkerPool.capacityCount], by simp [hdz], by simp [hdz]⟩
      · exact ⟨by simp [hdz], by simp [hdz], by simp [hdz]⟩
    | some m =>
      by_cases hsb : (p.get_free_worker.isNone || p.shutting_down) = true
      · exact ⟨by simp [hsb], by simp [hsb], by simp [hsb]⟩
      · have hs' : (p.get_free_worker.isNone || p.shutting_down) = false := by
          cases hb : (p.get_free_worker.isNone || p.shutting_down)
          · rfl
          · exact absurd hb hsb
        simp only [hs', Bool.false_eq_true, if_false]
        obtain ⟨ih1, ih2, ih3⟩ := ih (WorkerPool.dispatch_task
          { p with queued_messages := removeFirst p.queued_messages m } m now) (d + 1) now
        obtain ⟨d1, d2, d3⟩ := dispatch_inv
          { p with queued_messages := removeFirst p.queued_messages m } m now
        refine ⟨?_, ?_, ?_⟩
        · rw [ih1, d1]
          rfl
        · rw [ih2, d2]
        · rw [ih3, d3]

/-- Helper: `drain_queue` changes neither the capacity count nor the bounds. -/
theorem drain_queue_pool_inv (p : WorkerPool) (now : Int) :
    (p.drain_queue now).pool.capacityCount = p.capacityCount ∧
    (p.drain_queue now).pool.max_workers = p.max_workers ∧
    (p.drain_queue now).pool.min_workers = p.min_workers := by
  unfold WorkerPool.drain_queue
  exact drainAux_pool_inv _ p 0 now

/-- Starting a worker in place cannot raise the capacity count. -/
theorem updateStart_inv (p : WorkerPool) (wid : Nat) :
    (p.updateWorkerById wid PoolWorker.start).capacityCount ≤ p.capacityCount ∧
    (p.updateWorkerById wid PoolWorker.start).max_workers = p.max_workers ∧
    (p.updateWorkerById wid PoolWorker.start).min_workers = p.min_workers := by
  refine ⟨?_, rfl, rfl⟩
  simp only [WorkerPool.updateWorkerById, WorkerPool.capacityCount]
  apply filter_cap_map_le
  intro w hc
  by_cases hb : (w.worker_id == wid) = true
  · rw [if_pos hb] at hc
    exact start_capacity_le w hc
  · rw [if_neg hb] at hc
    exact hc

/-- Helper: `manageNewGo` cannot raise the capacity count and keeps the bounds. -/
theorem manageNewGo_inv (now : Int) :
    ∀ (ids : List Nat) (p : WorkerPool),
      (manageNewGo p ids now).capacityCount ≤ p.capacityCount ∧
      (manageNewGo p ids now).max_workers = p.max_workers ∧
      (manageNewGo p ids now).min_workers = p.min_workers := by
  intro ids
  induction ids with
  | nil => intro p; exact ⟨le_refl _, rfl, rfl⟩
  | cons wid rest ih =>
    intro p
    rw [manageNewGo]
    cases hf : p.workers.find? (fun w => w.worker_id == wid) with
    | none =>
      simp only [Bool.false_eq_true, if_false]
      exact ih p
    | some w =>
      by_cases hst : (w.status == Status.initialized) = true
      · rw [if_pos hst]
        obtain ⟨u1, u2, u3⟩ := updateStart_inv p wid
        obtain ⟨q1, q2, q3⟩ :=
          drain_queue_pool_inv (p.updateWorkerById wid PoolWorker.start) now
        obtain ⟨g1, g2, g3⟩ :=
          ih (((p.updateWorkerById wid PoolWorker.start).drain_queue now).pool)
        refine ⟨?_, ?_, ?_⟩
        · exact le_trans g1 (by rw [q1]; exact u1)
        · rw [g2, q2, u2]
        · rw [g3, q3, u3]
      · rw [if_neg hst]
        exact ih p

/-- Helper: `manage_new_workers` cannot raise the capacity count, keeps bounds. -/
theorem manage_new_inv (p : WorkerPool) (now : Int) :
    (p.manage_new_workers now).capacityCount ≤ p.capacityCount ∧
    (p.manage_new_workers now).max_workers = p.max_workers ∧
    (p.manage_new_workers now).min_workers = p.min_workers := by
  unfold WorkerPool.manage_new_workers
  exact manageNewGo_inv now _ p

/-- The per-worker step of `manage_old_workers` never creates capacity. -/
theorem manageOldStep_cap (p : WorkerPool) (now : Int) (w : PoolWorker) :
    (manageOldStep p now w).1.counts_for_capacity = true →
      w.counts_for_capacity = true := by
  unfold manageOldStep
  split_ifs <;> intro hc
  · rw [stop_capacity_false] at hc
    exact absurd hc (by decide)
  · rw [stop_capacity_false] at hc
    exact absurd hc (by decide)
  · exact hc
  · exact hc

/-- Helper: `manage_old_workers` cannot raise the capacity count, keeps bounds. -/
theorem manage_old_inv (p : WorkerPool) (now : Int) :
    (p.manage_old_workers now).capacityCount ≤ p.capacityCount ∧
    (p.manage_old_workers now).max_workers = p.max_workers ∧
    (p.manage_old_workers now).min_workers = p.min_workers := by
  refine ⟨?_, rfl, rfl⟩
  simp only [WorkerPool.manage_old_workers, WorkerPool.capacityCount]
  have h1 : List.Sublist
      (((p.workers.map (manageOldStep p now)).filter (fun x => !x.2)).map
        (fun x => x.1))
      ((p.workers.map (manageOldStep p now)).map (fun x => x.1)) :=
    (List.filter_sublist _).map _
  refine le_trans (h1.filter (fun w => w.counts_for_capacity)).length_le ?_
  rw [List.map_map]
  exact filter_cap_map_le _ (fun w hc => manageOldStep_cap p now w hc) p.workers

/-- Helper: `scale_workers` keeps the worker bounds unchanged. -/
theorem scale_workers_fields (p : WorkerPool) (now : Int) :
    (p.scale_workers now).max_workers = p.max_workers ∧
    (p.scale_workers now).min_workers = p.min_workers := by
  simp only [WorkerPool.scale_workers]
  split_ifs
  · exact upN_fields now _ p
  · exact ⟨rfl, rfl⟩
  · exact ⟨rfl, rfl⟩
  · exact ⟨rfl, rfl⟩
  · exact ⟨rfl, rfl⟩
  · exact ⟨rfl, rfl⟩

/-- One `scale_workers` pass keeps the capacity count within
`max_workers`: the min branch tops up to exactly `min_workers`, the
pressure branch adds one worker only strictly below `max_workers`, and
the scale-down branch only removes capacity. -/
theorem scale_workers_cap (p : WorkerPool) (now : Int)
    (hmin : p.min_workers ≤ p.max_workers)
    (hcap : p.capacityCount ≤ p.max_workers) :
    (p.scale_workers now).capacityCount ≤ p.max_workers := by
  simp only [WorkerPool.scale_workers]
  split_ifs with h1 h2 h3 h4 h5
  · rw [upN_cap]
    omega
  · rw [up_cap]
    omega
  · exact hcap
  · exact le_trans (signalFirstIdle_cap_le now p.workers) hcap
  · exact hcap
  · exact hcap

/-- A full management pass preserves the capacity invariant. -/
theorem managementPass_inv (p : WorkerPool) (now : Int)
    (hmin : p.min_workers ≤ p.max_workers)
    (hcap : p.capacityCount ≤ p.max_workers) :
    (p.managementPass now).capacityCount ≤ (p.managementPass now).max_workers ∧
    (p.managementPass now).min_workers ≤ (p.managementPass now).max_workers := by
  simp only [WorkerPool.managementPass]
  split_ifs with hsd
  · exact ⟨hcap, hmin⟩
  · obtain ⟨s2, s3⟩ := scale_workers_fields p now
    have s1 := scale_workers_cap p now hmin hcap
    obtain ⟨n1, n2, n3⟩ := manage_new_inv (p.scale_workers now) now
    obtain ⟨o1, o2, o3⟩ := manage_old_inv ((p.scale_workers now).manage_new_workers now) now
    constructor
    · show (((p.scale_workers now).manage_new_workers now).manage_old_workers
        now).capacityCount ≤ (((p.scale_workers now).manage_new_workers
          now).manage_old_workers now).max_workers
      rw [o2, n2, s2]
      exact le_trans o1 (le_trans n1 s1)
    · show (((p.scale_workers now).manage_new_workers now).manage_old_workers
        now).min_workers ≤ (((p.scale_workers now).manage_new_workers
          now).manage_old_workers now).max_workers
      rw [o2, n2, s2, o3, n3, s3]
      exact hmin

/-- C8: with `max_workers ≥ min_workers`, in every pool state reachable
from a fresh pool through management-loop passes and dispatches (workers
are created only by `up()` inside `scale_workers`), the number of workers
with `counts_for_capacity` never exceeds `max_workers`. -/
theorem c8_capacity_never_exceeds_max :
    ∀ (p : WorkerPool), Reach p → p.capacityCount ≤ p.max_workers := by
  have main : ∀ (p : WorkerPool), Reach p →
      p.capacityCount ≤ p.max_workers ∧ p.min_workers ≤ p.max_workers := by
    intro p h
    induction h with
    | init minW maxW hle =>
      refine ⟨?_, ?_⟩
      · simp [WorkerPool.init, WorkerPool.capacityCount]
      · simpa [WorkerPool.init] using hle
    | mgmt q now _ ih => exact managementPass_inv q now ih.2 ih.1
    | disp q m now _ ih =>
      obtain ⟨d1, d2, d3⟩ := dispatch_inv q m now
      exact ⟨by rw [d1, d2]; exact ih.1, by rw [d2, d3]; exact ih.2⟩
  intro p h
  exact (main p h).1

/-- Witness for C8: one management pass on a fresh (1, 4) pool — which
creates the min worker — still respects the bound. -/
theorem c8_witness :
    (WorkerPool.managementPass (WorkerPool.init 1 4) 0).capacityCount
      ≤ (WorkerPool.managementPass (WorkerPool.init 1 4) 0).max_workers :=
  c8_capacity_never_exceeds_max (WorkerPool.managementPass (WorkerPool.init 1 4) 0)
    (Reach.mgmt (WorkerPool.init 1 4) 0 (Reach.init 1 4 (by decide)))

/-- Witness for the amended C7: a single ready worker, pool not shutting
down; the event marks it exited, does not return, and kicks management. -/
theorem c7_amended_witness :
    ∃ q ret, readyExitPool.handle_exit_event 1 = some (q, ret) ∧
      (∀ w ∈ q.workers, w.worker_id = 1 →
        w.status = Status.exited ∧ w.exit_msg_event = true) ∧
      (ret = true ↔ (readyExitPool.shutting_down = true ∧
        q.workers.all (fun w => w.inactive) = true)) ∧
      q.events.management_event
        = (readyExitPool.events.management_event || !readyExitPool.shutting_down) :=
  c7_amended_shutdown_event_behaviour readyExitPool 1 (by decide)
